import Mathlib

/-!
# Verification of the botw-utils path canonicalizer and modification detector

Shallow embedding of `src/lib.rs` (path canonicalization) and
`src/hashes.rs` (the `StockHashTable` modification detector) from the
`botw-utils-rust` crate, together with theorems settling the spec claims.

Strings are modelled as `List Char` / `String` (Lean's `String` is a list of
characters), bytes as `Nat` values (real file bytes are `< 256`; the byte
value is reduced `% 256` exactly where the Rust code reads raw bytes).
Rust panics (out-of-bounds slice, `unwrap` on `Err`) are modelled by
returning `none` from the embedded function.
-/

namespace BotwUtils

/-! ## Rust string primitives

`String::replace` in Rust replaces **every** leftmost non-overlapping
occurrence of the pattern, scanning left to right.  The specialised
functions below embed the concrete `replace` calls appearing in the source.
-/

/-- `s.replace('\\', "/")`: replace every backslash with a forward slash. -/
def replaceBackslash (s : List Char) : List Char :=
  s.map (fun c => if c = '\\' then '/' else c)

/-- `s.replace(".s", ".")`: leftmost non-overlapping replacement of the
two-character substring `".s"` by `"."`, scanning left to right. -/
def replaceDotS : List Char → List Char
  | c :: d :: rest =>
    if c == '.' && d == 's' then '.' :: replaceDotS rest
    else c :: replaceDotS (d :: rest)
  | s => s

/-- Does the two-character substring `".s"` occur in the list? -/
def hasDotS : List Char → Bool
  | c :: d :: rest => (c == '.' && d == 's') || hasDotS (d :: rest)
  | _ => false

/-- Case-sensitive `starts_with` on character lists. -/
def isPrefix : List Char → List Char → Bool
  | [], _ => true
  | _ :: _, [] => false
  | p :: ps, c :: cs => p == c && isPrefix ps cs

/-- Case-sensitive `contains` (substring occurrence) on character lists. -/
def containsSub (pat : List Char) : List Char → Bool
  | [] => isPrefix pat []
  | c :: rest => isPrefix pat (c :: rest) || containsSub pat rest

/-- `s.replace("content/", "")`: remove every occurrence of `"content/"`. -/
def replaceContent : List Char → List Char
  | 'c' :: 'o' :: 'n' :: 't' :: 'e' :: 'n' :: 't' :: '/' :: rest => replaceContent rest
  | c :: rest => c :: replaceContent rest
  | [] => []

/-- `s.replace("aoc/content", "Aoc")`. -/
def replaceAocContent : List Char → List Char
  | 'a' :: 'o' :: 'c' :: '/' :: 'c' :: 'o' :: 'n' :: 't' :: 'e' :: 'n' :: 't' :: rest =>
    'A' :: 'o' :: 'c' :: replaceAocContent rest
  | c :: rest => c :: replaceAocContent rest
  | [] => []

/-- `s.replace("aoc", "Aoc")`. -/
def replaceAoc : List Char → List Char
  | 'a' :: 'o' :: 'c' :: rest => 'A' :: 'o' :: 'c' :: replaceAoc rest
  | c :: rest => c :: replaceAoc rest
  | [] => []

/-! ## The root-detection pattern

`lib.rs` compiles the case-insensitive regex

`(?i)(((Content|(atmosphere/(titles|contents)/)?01007EF00011E000/romfs)/)|((Aoc(/0010)?|(atmosphere/(titles|contents)/)?01007EF00011[ef]00[0-2]/romfs)/))`

and applies `replace_all` with a closure on the matched text.  The pattern
is a finite alternation of (almost) literal branches, embedded below as a
direct matcher.  The `regex` crate uses leftmost-first semantics: at each
position the first alternative that matches wins, and an optional group is
tried greedily (present first, then absent). -/

/-- Case-insensitive `starts_with` (the regex is compiled with `(?i)`). -/
def ciPrefix : List Char → List Char → Bool
  | [], _ => true
  | _ :: _, [] => false
  | p :: ps, c :: cs => p.toLower == c.toLower && ciPrefix ps cs

/-- The base-game title id followed by `/romfs/` (23 characters). -/
def idBase : List Char := "01007ef00011e000/romfs/".toList

/-- Matches `01007EF00011[ef]00[0-2]/romfs/` case-insensitively
(23 characters). -/
def idVariantAt (s : List Char) : Bool :=
  ciPrefix "01007ef00011".toList s &&
    (match s.drop 12 with
     | c :: rest =>
       (c == 'e' || c == 'E' || c == 'f' || c == 'F') &&
         ciPrefix "00".toList rest &&
         (match rest.drop 2 with
          | d :: rest2 => (d == '0' || d == '1' || d == '2') &&
              ciPrefix "/romfs/".toList rest2
          | [] => false)
     | [] => false)

/-- First alternative of the root regex:
`(Content|(atmosphere/(titles|contents)/)?01007EF00011E000/romfs)/`.
Returns the length of the match at the head of `s`, if any. -/
def tryContentAlt (s : List Char) : Option Nat :=
  if ciPrefix "content/".toList s then some 8
  else if ciPrefix "atmosphere/titles/".toList s && ciPrefix idBase (s.drop 18) then some 41
  else if ciPrefix "atmosphere/contents/".toList s && ciPrefix idBase (s.drop 20) then some 43
  else if ciPrefix idBase s then some 23
  else none

/-- Second alternative of the root regex:
`(Aoc(/0010)?|(atmosphere/(titles|contents)/)?01007EF00011[ef]00[0-2]/romfs)/`.
Returns the length of the match at the head of `s`, if any. -/
def tryAocAlt (s : List Char) : Option Nat :=
  if ciPrefix "aoc/0010/".toList s then some 9
  else if ciPrefix "aoc/".toList s then some 4
  else if ciPrefix "atmosphere/titles/".toList s && idVariantAt (s.drop 18) then some 41
  else if ciPrefix "atmosphere/contents/".toList s && idVariantAt (s.drop 20) then some 43
  else if idVariantAt s then some 23
  else none

/-- Length of the root-pattern match at the head of `s` (leftmost-first:
the content alternative is preferred over the aoc alternative). -/
def matchRootAt (s : List Char) : Option Nat :=
  match tryContentAlt s with
  | some n => some n
  | none => tryAocAlt s

/-- The replacement closure of `lib.rs`: on matched text `caps[0]`, produce
`"content/"` when it starts with `"content"` (case-sensitively) or contains
the literal `"01007EF00011E000"`, and `"aoc/0010/"` otherwise. -/
def rootReplacement (m : List Char) : List Char :=
  if isPrefix "content".toList m || containsSub "01007EF00011E000".toList m then
    "content/".toList
  else
    "aoc/0010/".toList

/-- `Regex::replace_all`: scan left to right, replacing each leftmost
non-overlapping match and resuming after it.  `fuel` bounds the recursion;
every match has positive length, so `fuel = s.length` is always enough. -/
def rootScanAux : Nat → List Char → List Char
  | 0, s => s
  | _ + 1, [] => []
  | fuel + 1, c :: rest =>
    match matchRootAt (c :: rest) with
    | some n =>
      rootReplacement ((c :: rest).take n) ++ rootScanAux fuel ((c :: rest).drop n)
    | none => c :: rootScanAux fuel rest

/-- `RE.replace_all(&normalized, closure)`. -/
def rootScan (s : List Char) : List Char := rootScanAux s.length s

/-! ## The canonicalizers of `lib.rs` -/

/-- The shared normalization in both canonicalizers:
`to_string_lossy().replace('\\', "/").replace(".s", ".")`. -/
def normalize (file_path : String) : List Char :=
  replaceDotS (replaceBackslash file_path.toList)

/-- The classification of the normalized path at the end of
`get_canon_name`: the `aoc/` branch, the `content` branch, or `None`. -/
def canonClassify (normalized : List Char) : Option String :=
  if isPrefix "aoc/".toList normalized then
    some (String.mk (replaceAoc (replaceAocContent normalized)))
  else if isPrefix "content".toList normalized &&
      !containsSub "/aoc".toList normalized then
    some (String.mk (replaceContent normalized))
  else none

/-- `get_canon_name` from `src/lib.rs`. -/
def get_canon_name (file_path : String) : Option String :=
  canonClassify (rootScan (normalize file_path))

/-- `get_canon_name_without_root` from `src/lib.rs`. -/
def get_canon_name_without_root (file_path : String) : String :=
  String.mk (normalize file_path)

/-! ## XxHash32

`hashes.rs` hashes file content with `twox_hash::XxHash32::with_seed(0)`,
one `write` of the whole buffer followed by `finish`, which computes the
standard one-shot XXH32 of the buffer.  The algorithm is embedded below
over `Nat` with explicit reduction `% 2^32`. -/

/-- `2^32`, the modulus of all 32-bit arithmetic in XXH32. -/
def M32 : Nat := 4294967296

def xxPrime1 : Nat := 2654435761
def xxPrime2 : Nat := 2246822519
def xxPrime3 : Nat := 3266489917
def xxPrime4 : Nat := 668265263
def xxPrime5 : Nat := 374761393

/-- 32-bit wrapping addition. -/
def add32 (a b : Nat) : Nat := (a + b) % M32

/-- 32-bit wrapping multiplication. -/
def mul32 (a b : Nat) : Nat := a * b % M32

/-- 32-bit left rotation of `x` by `r` (for `0 < r < 32` and `x < 2^32` the
two summands occupy disjoint bit ranges, so `+` is the bitwise or). -/
def rotl32 (x r : Nat) : Nat :=
  x % M32 * 2 ^ r % M32 + x % M32 / 2 ^ (32 - r)

/-- A little-endian 32-bit lane from four bytes. -/
def le32 (b0 b1 b2 b3 : Nat) : Nat :=
  b0 % 256 + 256 * (b1 % 256) + 65536 * (b2 % 256) + 16777216 * (b3 % 256)

/-- The XXH32 accumulator round. -/
def xxRound (acc lane : Nat) : Nat :=
  mul32 (rotl32 (add32 acc (mul32 lane xxPrime2)) 13) xxPrime1

/-- Consume 16-byte stripes into the four accumulators while at least 16
bytes remain; return the accumulators and the unconsumed tail. -/
def xxStripes (a1 a2 a3 a4 : Nat) :
    List Nat → (Nat × Nat × Nat × Nat) × List Nat
  | b0 :: b1 :: b2 :: b3 :: b4 :: b5 :: b6 :: b7 ::
      b8 :: b9 :: b10 :: b11 :: b12 :: b13 :: b14 :: b15 :: rest =>
    xxStripes (xxRound a1 (le32 b0 b1 b2 b3)) (xxRound a2 (le32 b4 b5 b6 b7))
      (xxRound a3 (le32 b8 b9 b10 b11)) (xxRound a4 (le32 b12 b13 b14 b15)) rest
  | s => ((a1, a2, a3, a4), s)

/-- Fold the remaining (fewer than 16) bytes into the hash: 4-byte lanes
first, then single bytes. -/
def xxTail (h : Nat) : List Nat → Nat
  | b0 :: b1 :: b2 :: b3 :: rest =>
    xxTail (mul32 (rotl32 (add32 h (mul32 (le32 b0 b1 b2 b3) xxPrime3)) 17) xxPrime4) rest
  | b :: rest =>
    xxTail (mul32 (rotl32 (add32 h (mul32 (b % 256) xxPrime5)) 11) xxPrime1) rest
  | [] => h

/-- The final XXH32 avalanche mix. -/
def xxAvalanche (h : Nat) : Nat :=
  let h1 := Nat.xor h (h / 2 ^ 15)
  let h2 := mul32 h1 xxPrime2
  let h3 := Nat.xor h2 (h2 / 2 ^ 13)
  let h4 := mul32 h3 xxPrime3
  Nat.xor h4 (h4 / 2 ^ 16)

/-- One-shot XXH32 of a byte sequence with the given seed. -/
def xxh32 (seed : Nat) (input : List Nat) : Nat :=
  let len := input.length
  let hAndRest : Nat × List Nat :=
    if 16 ≤ len then
      let sr := xxStripes (add32 seed (add32 xxPrime1 xxPrime2)) (add32 seed xxPrime2)
        (seed % M32) ((seed + (M32 - xxPrime1)) % M32) input
      (add32 (rotl32 sr.1.1 1)
        (add32 (rotl32 sr.1.2.1 7)
          (add32 (rotl32 sr.1.2.2.1 12) (rotl32 sr.1.2.2.2 18))), sr.2)
    else (add32 seed xxPrime5, input)
  xxAvalanche (xxTail (add32 hAndRest.1 len) hAndRest.2)

/-! ## The modification detector of `hashes.rs`

The reference datasets (`wiiu_hashes.json`, `switch_hashes.json`) are
static data outside the source tree, so the hash table is kept abstract: an
association list from canonical path to the list of acceptable `u32`
fingerprints, with `HashMap` lookup modelled by first-match search.  The
yaz0 decompressor lives in the external `yaz0` crate (a black-box byte
transform per the spec), so it is a parameter `Decompressor`; `none` models
a failing `Yaz0Archive::new`/`decompress`, on which the source `unwrap`s
(i.e. panics).  A panic of the embedded function is the result `none`. -/

/-- `HashMap<&'static str, Vec<u32>>` as an association list. -/
def HashTable : Type := List (String × List Nat)

/-- `HashMap` lookup (`self.table[key]` / `get`): the value at the first
entry whose key matches. -/
def tableGet (t : HashTable) (p : String) : Option (List Nat) :=
  (t.find? (fun e => e.1 == p)).map (fun e => e.2)

/-- `self.table.contains_key(key)`. -/
def contains_key (t : HashTable) (p : String) : Bool :=
  (tableGet t p).isSome

/-- The struct `StockHashTable` wrapping the loaded dataset. -/
structure StockHashTable where
  table : HashTable

/-- The 4-byte compression-container marker `b"Yaz0"`. -/
def yaz0Magic : List Nat := [89, 97, 122, 48]

/-- The external yaz0 decompression boundary:
`Yaz0Archive::new(Cursor::new(data))` followed by `decompress()`, with
`none` for failure of either step. -/
def Decompressor : Type := List Nat → Option (List Nat)

/-- `StockHashTable::is_file_modded` from `src/hashes.rs`.  Returns `none`
where the Rust code panics: on the out-of-bounds slice `&data[0..4]` when
`data` has fewer than 4 bytes, and on `.unwrap()` when decompression of
`Yaz0`-tagged data fails. -/
def is_file_modded (dec : Decompressor) (self : StockHashTable)
    (file_name : String) (data : List Nat) (flag_new : Bool) : Option Bool :=
  match tableGet self.table file_name with
  | some hashes =>
    if data.length < 4 then none
    else if data.take 4 == yaz0Magic then
      match dec data with
      | some payload => some (!(hashes.contains (xxh32 0 payload)))
      | none => none
    else some (!(hashes.contains (xxh32 0 data)))
  | none => some flag_new

/-- `StockHashTable::is_file_new` from `src/hashes.rs`. -/
def is_file_new (self : StockHashTable) (file_name : String) : Bool :=
  !(contains_key self.table file_name)

/-- `StockHashTable::get_stock_files` (the lazy `self.table.keys()`
iterator), as the list of keys it yields. -/
def get_stock_files (self : StockHashTable) : List String :=
  self.table.map (fun e => e.1)

/-- `StockHashTable::list_stock_files`
(`self.table.keys().map(|x| x.to_string()).collect()`); the
`&str → String` ownership conversion `to_string` is the identity on the
underlying character data. -/
def list_stock_files (self : StockHashTable) : List String :=
  (self.table.map (fun e => e.1)).map (fun x => x)

/-- `is_file_modded` with its receiver state made explicit: the Rust method
takes `&self` (a shared borrow), reads `self.table` and returns it to the
caller unchanged — no write to the table occurs anywhere in the method. -/
def is_file_modded_call (dec : Decompressor) (self : StockHashTable)
    (file_name : String) (data : List Nat) (flag_new : Bool) :
    Option Bool × StockHashTable :=
  (is_file_modded dec self file_name data flag_new, self)

/-! ## Helper lemmas -/

theorem toList_mk (l : List Char) : (String.mk l).toList = l := rfl

theorem mk_toList (p : String) : String.mk p.toList = p := rfl

theorem replaceBackslash_eq_self {s : List Char} (h : ∀ c ∈ s, c ≠ '\\') :
    replaceBackslash s = s := by
  induction s with
  | nil => rfl
  | cons c cs ih =>
    have hc : c ≠ '\\' := h c (List.mem_cons_self _ _)
    have ih' := ih (fun x hx => h x (List.mem_cons_of_mem _ hx))
    simp only [replaceBackslash, List.map_cons, if_neg hc]
    simpa only [replaceBackslash] using congrArg (c :: ·) ih'

theorem hasDotS_cons_false {c : Char} {s : List Char}
    (h : hasDotS (c :: s) = false) : hasDotS s = false := by
  cases s with
  | nil => rfl
  | cons d rest =>
    simp only [hasDotS, Bool.or_eq_false_iff] at h
    exact h.2

theorem hasDotS_head_false {c d : Char} {s : List Char}
    (h : hasDotS (c :: d :: s) = false) : (c == '.' && d == 's') = false := by
  simp only [hasDotS, Bool.or_eq_false_iff] at h
  exact h.1

theorem replaceDotS_eq_self {s : List Char} (h : hasDotS s = false) :
    replaceDotS s = s := by
  induction s with
  | nil => rfl
  | cons c cs ih =>
    cases cs with
    | nil => rfl
    | cons d rest =>
      simp only [replaceDotS, hasDotS_head_false h, Bool.false_eq_true, if_false]
      exact congrArg (c :: ·) (ih (hasDotS_cons_false h))

theorem replaceDotS_append {a : List Char} (b : List Char)
    (ha : hasDotS a = false) :
    replaceDotS (a ++ '.' :: 's' :: b) = a ++ '.' :: replaceDotS b := by
  induction a with
  | nil => simp [replaceDotS]
  | cons c cs ih =>
    cases cs with
    | nil =>
      have hds : ('.' == 's') = false := by decide
      simp [replaceDotS, hds]
    | cons d rest =>
      have hcd := hasDotS_head_false ha
      simp only [List.cons_append, replaceDotS, hcd, Bool.false_eq_true, if_false]
      have := ih (hasDotS_cons_false ha)
      simp only [List.cons_append] at this
      exact congrArg (c :: ·) this

theorem isPrefix_content_imp_not_aoc {l : List Char}
    (h : isPrefix "content".toList l = true) :
    isPrefix "aoc/".toList l = false := by
  have hc : "content".toList = ['c', 'o', 'n', 't', 'e', 'n', 't'] := rfl
  have ha : "aoc/".toList = ['a', 'o', 'c', '/'] := rfl
  rw [hc] at h
  rw [ha]
  cases l with
  | nil => simp [isPrefix] at h
  | cons c cs =>
    simp only [isPrefix, Bool.and_eq_true, beq_iff_eq] at h
    simp only [isPrefix, Bool.and_eq_false_iff]
    left
    simp [← h.1]

theorem normalize_mk (l : List Char) :
    normalize (String.mk l) = replaceDotS (replaceBackslash l) := rfl

theorem normalize_def (p : String) :
    normalize p = replaceDotS (replaceBackslash p.toList) := rfl

/-! ## Claim theorems -/

/-- C5: the six canonicalization fixtures of section 8 hold exactly:
the four `Some` fixtures, the `None` fixture, and the without-root
fixture all evaluate as the spec states. -/
theorem c5_fixtures :
    get_canon_name "content\\Actor\\Pack\\Enemy_Lizalfos_Senior.sbactorpack" =
      some "Actor/Pack/Enemy_Lizalfos_Senior.bactorpack" ∧
    get_canon_name "aoc/0010/Map/MainField/A-1/A-1_Dynamic.smubin" =
      some "Aoc/0010/Map/MainField/A-1/A-1_Dynamic.mubin" ∧
    get_canon_name "atmosphere/contents/01007EF00011E000/romfs/Actor/ActorInfo.product.sbyml" =
      some "Actor/ActorInfo.product.byml" ∧
    get_canon_name "atmosphere/contents/01007EF00011F001/romfs/Pack/AocMainField.pack" =
      some "Aoc/0010/Pack/AocMainField.pack" ∧
    get_canon_name "Hellow/Sweetie.tardis" = none ∧
    get_canon_name_without_root "Event/EventInfo.product.sbyml" =
      "Event/EventInfo.product.byml" := by
  exact ⟨by decide, by decide, by decide, by decide, by decide, by decide⟩

/-- C4 is false on the code: `String::replace(".s", ".")` replaces every
occurrence, not only the first.  On `"A.sb.sc"` a first-occurrence-only
substitution would yield `"A.b.sc"`, but both canonicalizers also rewrite
the second `".s"` and yield `"A.b.c"`. -/
theorem c4_counterexample :
    get_canon_name_without_root "A.sb.sc" = "A.b.c" ∧
    get_canon_name "content/A.sb.sc" = some "A.b.c" ∧
    ("A.b.c" : String) ≠ "A.b.sc" := by
  exact ⟨by decide, by decide, by decide⟩

/-- C4 (amended): both canonicalizers replace every leftmost
non-overlapping occurrence of `".s"` with `"."`, scanning left to right:
writing the input as `a ++ ".s" ++ b` with no `".s"` (and no backslash) in
`a`, the first occurrence is replaced and the substitution continues
through the tail `b` (`replaceDotS b`), in `get_canon_name_without_root`
directly and inside `get_canon_name` before root classification. -/
theorem c4_amended (a b : List Char) (ha : hasDotS a = false)
    (ha' : ∀ c ∈ a, c ≠ '\\') (hb : ∀ c ∈ b, c ≠ '\\') :
    get_canon_name_without_root (String.mk (a ++ '.' :: 's' :: b)) =
      String.mk (a ++ '.' :: replaceDotS b) ∧
    get_canon_name (String.mk (a ++ '.' :: 's' :: b)) =
      canonClassify (rootScan (a ++ '.' :: replaceDotS b)) := by
  have hall : ∀ c ∈ a ++ '.' :: 's' :: b, c ≠ '\\' := by
    intro c hc
    rcases List.mem_append.mp hc with h | h
    · exact ha' c h
    · rcases List.mem_cons.mp h with rfl | h'
      · decide
      · rcases List.mem_cons.mp h' with rfl | h''
        · decide
        · exact hb c h''
  have hn : normalize (String.mk (a ++ '.' :: 's' :: b)) = a ++ '.' :: replaceDotS b := by
    rw [normalize_mk, replaceBackslash_eq_self hall, replaceDotS_append b ha]
  constructor
  · show String.mk (normalize _) = _
    rw [hn]
  · show canonClassify (rootScan (normalize _)) = _
    rw [hn]

/-- Witness for the amended C4 at `a = "A"`, `b = "b.s"`. -/
theorem c4_amended_witness :
    get_canon_name_without_root (String.mk (['A'] ++ '.' :: 's' :: ['b', '.', 's'])) =
      String.mk (['A'] ++ '.' :: replaceDotS ['b', '.', 's']) :=
  (c4_amended ['A'] ['b', '.', 's'] (by decide) (by decide) (by decide)).1

/-- C7 is false on the code: the `content` branch runs
`normalized.replace("content/", "")`, which removes every occurrence of
`"content/"`, not only the leading segment.  On `"content/content/A.bin"`
(whose normalized form is itself, starting with `"content"` and containing
no `"/aoc"`) a leading-only strip would yield `"content/A.bin"`, but the
code yields `"A.bin"`. -/
theorem c7_counterexample :
    get_canon_name "content/content/A.bin" = some "A.bin" ∧
    get_canon_name "content/content/A.bin" ≠ some "content/A.bin" := by
  exact ⟨by decide, by decide⟩

/-- C7 (amended): for every input whose normalized form starts with
`"content"` and contains no `"/aoc"`, `get_canon_name` returns the
normalized form with **every** occurrence of `"content/"` removed. -/
theorem c7_amended (p : String)
    (h1 : isPrefix "content".toList (rootScan (normalize p)) = true)
    (h2 : containsSub "/aoc".toList (rootScan (normalize p)) = false) :
    get_canon_name p = some (String.mk (replaceContent (rootScan (normalize p)))) := by
  have ha := isPrefix_content_imp_not_aoc h1
  have e1 : "aoc/".toList = ['a', 'o', 'c', '/'] := rfl
  have e2 : "content".toList = ['c', 'o', 'n', 't', 'e', 'n', 't'] := rfl
  have e3 : "/aoc".toList = ['/', 'a', 'o', 'c'] := rfl
  rw [e1] at ha
  rw [e2] at h1
  rw [e3] at h2
  show canonClassify (rootScan (normalize p)) = _
  simp [canonClassify, ha, h1, h2]

/-- Witness for the amended C7 at `"content/A.bin"`. -/
theorem c7_amended_witness :
    get_canon_name "content/A.bin" =
      some (String.mk (replaceContent (rootScan (normalize "content/A.bin")))) :=
  c7_amended "content/A.bin" (by decide) (by decide)

/-- C8 is false as a statement about every path: on `".ss"` one
application gives `".s"` but a second application gives `"."`. -/
theorem c8_counterexample :
    get_canon_name_without_root (get_canon_name_without_root ".ss") ≠
      get_canon_name_without_root ".ss" := by decide

/-- C8 (amended): on an already-canonical path — one with no backslash and
no occurrence of `".s"` — `get_canon_name_without_root` is the identity,
hence applying it twice equals applying it once. -/
theorem c8_amended (p : String) (h1 : hasDotS p.toList = false)
    (h2 : ∀ c ∈ p.toList, c ≠ '\\') :
    get_canon_name_without_root p = p ∧
    get_canon_name_without_root (get_canon_name_without_root p) =
      get_canon_name_without_root p := by
  have hp : get_canon_name_without_root p = p := by
    show String.mk (normalize p) = p
    rw [normalize_def, replaceBackslash_eq_self h2, replaceDotS_eq_self h1, mk_toList]
  exact ⟨hp, by rw [hp]; exact hp⟩

/-- Witness for the amended C8 at the canonical path
`"Actor/Pack/A.bactorpack"`. -/
theorem c8_amended_witness :
    get_canon_name_without_root (get_canon_name_without_root "Actor/Pack/A.bactorpack") =
      get_canon_name_without_root "Actor/Pack/A.bactorpack" :=
  (c8_amended "Actor/Pack/A.bactorpack" (by decide) (by decide)).2

/-- C1: for a path that is a key of the dataset and content that does not
begin with the compression marker (and has at least 4 bytes),
`is_file_modded` hashes the full content with XXH32 at seed 0 and returns
`true` exactly when that fingerprint is absent from the path's stored
fingerprint list. -/
theorem c1_known_uncompressed (dec : Decompressor) (self : StockHashTable)
    (p : String) (d : List Nat) (f : Bool) (hashes : List Nat)
    (hk : tableGet self.table p = some hashes)
    (hlen : 4 ≤ d.length) (hm : d.take 4 ≠ yaz0Magic) :
    is_file_modded dec self p d f = some (!(hashes.contains (xxh32 0 d))) ∧
    (is_file_modded dec self p d f = some true ↔ xxh32 0 d ∉ hashes) := by
  have hlt : ¬ (d.length < 4) := by omega
  have hbeq : (d.take 4 == yaz0Magic) = false := by
    simpa using hm
  have heq : is_file_modded dec self p d f = some (!(hashes.contains (xxh32 0 d))) := by
    unfold is_file_modded
    rw [hk]
    simp [hlt, hbeq]
  refine ⟨heq, ?_⟩
  rw [heq]
  simp

/-- Witness for C1: a one-entry table, the key `"A"`, four bytes of
content that do not start with `b"Yaz0"`. -/
theorem c1_witness :
    is_file_modded (fun _ => none) ⟨[("A", [5])]⟩ "A" [1, 2, 3, 4] false =
      some (!([5].contains (xxh32 0 [1, 2, 3, 4]))) :=
  (c1_known_uncompressed (fun _ => none) ⟨[("A", [5])]⟩ "A" [1, 2, 3, 4] false [5]
    (by decide) (by decide) (by decide)).1

/-- C2 is false on the code: when decompression of `Yaz0`-tagged content
fails, `is_file_modded` does not return `true` — the two `.unwrap()` calls
panic, surfacing the failure to the caller as a panic (modelled as `none`),
for either value of the flag. -/
theorem c2_counterexample :
    is_file_modded (fun _ => none) ⟨[("A", [5])]⟩ "A" [89, 97, 122, 48, 0] true ≠
      some true ∧
    is_file_modded (fun _ => none) ⟨[("A", [5])]⟩ "A" [89, 97, 122, 48, 0] true = none ∧
    is_file_modded (fun _ => none) ⟨[("A", [5])]⟩ "A" [89, 97, 122, 48, 0] false = none := by
  exact ⟨by decide, rfl, rfl⟩

/-- C2 (amended): for a path that is a key of the dataset and content that
begins with the 4-byte compression marker, if decompression fails then the
call panics (`none`): no boolean verdict is returned, regardless of the
`flag_new` policy flag. -/
theorem c2_amended (dec : Decompressor) (self : StockHashTable) (p : String)
    (d : List Nat) (f : Bool) (hashes : List Nat)
    (hk : tableGet self.table p = some hashes)
    (hm : d.take 4 = yaz0Magic) (hfail : dec d = none) :
    is_file_modded dec self p d f = none := by
  have h4 : (d.take 4).length = 4 := by rw [hm]; rfl
  rw [List.length_take] at h4
  have h5 : min 4 d.length ≤ d.length := Nat.min_le_right _ _
  rw [h4] at h5
  have hlt : ¬ (d.length < 4) := by omega
  unfold is_file_modded
  rw [hk]
  simp [hlt, hm, hfail]

/-- Witness for the amended C2: a failing decompressor on marker-tagged
content of a known path. -/
theorem c2_amended_witness :
    is_file_modded (fun _ => none) ⟨[("B", [7])]⟩ "B" [89, 97, 122, 48] true = none :=
  c2_amended (fun _ => none) ⟨[("B", [7])]⟩ "B" [89, 97, 122, 48] true [7]
    (by decide) (by decide) rfl

/-- C3: for a path that is not a key of the dataset, `is_known` (the
negation of `is_file_new`) is false — i.e. `is_file_new` is true — and
`is_file_modded` returns exactly the policy flag for every byte sequence
(the bytes are never inspected, so even the empty sequence is safe). -/
theorem c3_unknown_path (dec : Decompressor) (self : StockHashTable)
    (p : String) (d : List Nat) (f : Bool)
    (hk : contains_key self.table p = false) :
    is_file_new self p = true ∧ is_file_modded dec self p d f = some f := by
  have hn : tableGet self.table p = none := by
    cases h : tableGet self.table p with
    | none => rfl
    | some v => simp [contains_key, h] at hk
  constructor
  · unfold is_file_new
    rw [hk]
    rfl
  · unfold is_file_modded
    rw [hn]

/-- Witness for C3: the path `"B"` is absent from the one-entry table;
the bytes are empty and the flag decides the verdict. -/
theorem c3_witness :
    is_file_new ⟨[("A", [5])]⟩ "B" = true ∧
    is_file_modded (fun _ => none) ⟨[("A", [5])]⟩ "B" [] true = some true :=
  c3_unknown_path (fun _ => none) ⟨[("A", [5])]⟩ "B" [] true (by decide)

/-- C6 describes the intended behaviour, but the code has a bug: on a known
path with fewer than 4 content bytes the source evaluates `&data[0..4]`,
an out-of-bounds slice that panics, instead of hashing the short content
directly.  The embedding returns `none` (panic), not a boolean, both on
empty content and on 3-byte content. -/
theorem c6_short_input_panics :
    is_file_modded (fun _ => none) ⟨[("C", [5])]⟩ "C" [] false = none ∧
    is_file_modded (fun _ => none) ⟨[("C", [5])]⟩ "C" [89, 97, 122] true = none := by
  exact ⟨rfl, rfl⟩

/-- C9: `is_file_modded` is deterministic and side-effect free.  With the
`&self` receiver threaded explicitly, a call leaves the table unchanged,
and a second call on the resulting state with the same arguments returns
the same verdict. -/
theorem c9_deterministic_pure (dec : Decompressor) (self : StockHashTable)
    (p : String) (d : List Nat) (f : Bool) :
    (is_file_modded_call dec self p d f).2 = self ∧
    (is_file_modded_call dec (is_file_modded_call dec self p d f).2 p d f).1 =
      (is_file_modded_call dec self p d f).1 :=
  ⟨rfl, rfl⟩

/-- C10: the eager enumeration `list_stock_files` and the lazy enumeration
`get_stock_files` yield exactly the same list of canonical paths. -/
theorem c10_enumerations_agree (self : StockHashTable) :
    list_stock_files self = get_stock_files self := by
  simp [list_stock_files, get_stock_files]

end BotwUtils
